import Mathlib

/-!
Verification of the MicroHydra Cardputer-ADV key-input layer.

The embedding models the two source modules:
* `lib/userinput/tca8418.py` — the TCA8418 keypad-controller driver
  (`read_event_count`, `read_key_event`, `clear_interrupt`, `__init__`);
* `lib/userinput/_keys.py` — the key resolver (`Keys.scan`,
  `Keys.get_pressed_keys`, the three keymap layers, `Keys.__init__`).

The chip is modelled by its observable register state: the interrupt-status
byte, the event FIFO (reading the key-status register pops the head), and a
finite schedule of transient bus glitches on interrupt-status reads (a
glitched read returns 0 instead of the register's value, and the state is
otherwise unchanged — modelling the "reports events but returns none"
scenario of the specification).  Python exceptions are modelled with
`Except` (`KeyError` carries the offending key code), and the unbounded
`while` drain loop is modelled with explicit fuel, `none` meaning the loop
has not finished within the given fuel.
-/

/-- State of the TCA8418 chip as observed through its registers:
`intStat` is the REG_INT_STAT byte, `fifo` the pending raw event bytes
(REG_KEY_STAT reads pop the head, REG_KEY_LCK_EC's low nibble is the
length), `glitches` a finite schedule of transient bus faults for
interrupt-status reads. -/
structure TCA8418 where
  intStat : Nat
  fifo : List Nat
  glitches : List Bool
deriving DecidableEq

/-- Read REG_INT_STAT.  A scheduled glitch makes the read return 0 without
touching the register; the schedule entry is consumed either way. -/
def readIntStat (c : TCA8418) : Nat × TCA8418 :=
  match c.glitches with
  | [] => (c.intStat, c)
  | g :: rest => (if g then 0 else c.intStat, { c with glitches := rest })

/-- Value of REG_KEY_LCK_EC: the FIFO depth sits in the low 4 bits. -/
def readKeyLckEc (c : TCA8418) : Nat :=
  c.fifo.length

/-- `TCA8418.read_event_count`: low nibble of REG_KEY_LCK_EC. -/
def read_event_count (c : TCA8418) : Nat :=
  readKeyLckEc c &&& 0x0F

/-- Read REG_KEY_STAT: returns the oldest raw event byte and pops it from
the FIFO (the destructive-read hardware contract). -/
def readKeyStat (c : TCA8418) : Nat × TCA8418 :=
  (c.fifo.headD 0, { c with fifo := c.fifo.tail })

/-- `TCA8418.clear_interrupt`: write 0xFF to REG_INT_STAT, which clears all
interrupt-status bits (write-one-to-clear). -/
def clear_interrupt (c : TCA8418) : TCA8418 :=
  { c with intStat := 0 }

/-- `TCA8418.read_key_event`, translated branch for branch, including the
dead `(interrupt & 0x00) != 0` early return.  The Python sentinel return
`0, 0` becomes `(0, false)`. -/
def read_key_event (c : TCA8418) : (Nat × Bool) × TCA8418 :=
  let r := readIntStat c
  let interrupt := r.1
  let c1 := r.2
  if interrupt &&& 0x00 ≠ 0 then ((0, false), c1)
  else if interrupt &&& 0x01 ≠ 0 then
    let event_count := readKeyLckEc c1 &&& 0x0F
    if event_count > 0 then
      let k := readKeyStat c1
      let key_event := k.1
      let c2 := k.2
      let is_press : Bool := key_event &&& 0x80 != 0
      let key_code := key_event &&& 0x7F
      let c3 := if event_count = 1 then clear_interrupt c2 else c2
      ((key_code, is_press), c3)
    else ((0, false), c1)
  else ((0, false), c1)

/-- `TCA8418.read_key_event` with the dead `(interrupt & 0x00) != 0`
branch removed; used to state that the branch is unreachable. -/
def read_key_event_live (c : TCA8418) : (Nat × Bool) × TCA8418 :=
  let r := readIntStat c
  let interrupt := r.1
  let c1 := r.2
  if interrupt &&& 0x01 ≠ 0 then
    let event_count := readKeyLckEc c1 &&& 0x0F
    if event_count > 0 then
      let k := readKeyStat c1
      let key_event := k.1
      let c2 := k.2
      let is_press : Bool := key_event &&& 0x80 != 0
      let key_code := key_event &&& 0x7F
      let c3 := if event_count = 1 then clear_interrupt c2 else c2
      ((key_code, is_press), c3)
    else ((0, false), c1)
  else ((0, false), c1)

/-- The default bus address of the chip (`TCA8418_ADDR`). -/
def TCA8418_ADDR : Nat := 0x34

/-- The address check at the top of `TCA8418.__init__`: raises `OSError`
when the chip does not acknowledge its bus address in `i2c.scan()`. -/
def tca8418_init (scanResult : List Nat) (address : Nat) : Except String Unit :=
  if address ∈ scanResult then Except.ok ()
  else Except.error "TCA8418 not found at address 0x34"

/-- State built by `Keys.__init__`: the held-key buffer
`_key_list_buffer`, the keypad driver handle (`none` when the `OSError`
from `TCA8418.__init__` was caught), and `key_state`. -/
structure KeysState where
  key_list_buffer : List Nat
  keypad : Option Unit
  key_state : List String
deriving DecidableEq

/-- `Keys.__init__`: sets up the buffer, then tries to construct the
driver, catching `OSError` (the exception is printed and swallowed, and
construction continues). -/
def keys_init (scanResult : List Nat) : KeysState :=
  { key_list_buffer := []
  , keypad :=
      match tca8418_init scanResult TCA8418_ADDR with
      | Except.ok u => some u
      | Except.error _ => none
  , key_state := [] }

/-- `KC_SHIFT` from `_keys.py`. -/
def KC_SHIFT : Nat := 7

/-- `KC_FN` from `_keys.py`. -/
def KC_FN : Nat := 3

/-- The apostrophe symbol used by two keymap entries. -/
def APOS : String := (Char.ofNat 39).toString

/-- The plain keymap layer `KEYMAP` from `_keys.py`. -/
def KEYMAP : List (Nat × String) :=
  [ (1, "`"), (5, "1"), (11, "2"), (15, "3"), (21, "4"), (25, "5"),
    (31, "6"), (35, "7"), (41, "8"), (45, "9"), (51, "0"), (55, "-"),
    (61, "="), (65, "BSPC"),
    (2, "TAB"), (6, "q"), (12, "w"), (16, "e"), (22, "r"), (26, "t"),
    (32, "y"), (36, "u"), (42, "i"), (46, "o"), (52, "p"), (56, "["),
    (62, "]"), (66, "\\"),
    (3, "FN"), (7, "SHIFT"), (13, "a"), (17, "s"), (23, "d"), (27, "f"),
    (33, "g"), (37, "h"), (43, "j"), (47, "k"), (53, "l"), (57, ";"),
    (63, APOS), (67, "ENT"),
    (4, "CTL"), (8, "OPT"), (14, "ALT"), (18, "z"), (24, "x"), (28, "c"),
    (34, "v"), (38, "b"), (44, "n"), (48, "m"), (54, ","), (58, "."),
    (64, "/"), (68, "SPC") ]

/-- The shifted keymap layer `KEYMAP_SHIFT` from `_keys.py`. -/
def KEYMAP_SHIFT : List (Nat × String) :=
  [ (1, "~"), (5, "!"), (11, "@"), (15, "#"), (21, "$"), (25, "%"),
    (31, "^"), (35, "&"), (41, "*"), (45, "("), (51, ")"), (55, "_"),
    (61, "+"), (65, "BSPC"),
    (2, "TAB"), (6, "Q"), (12, "W"), (16, "E"), (22, "R"), (26, "T"),
    (32, "Y"), (36, "U"), (42, "I"), (46, "O"), (52, "P"), (56, "\x7b"),
    (62, "\x7d"), (66, "|"),
    (3, "FN"), (7, "SHIFT"), (13, "A"), (17, "S"), (23, "D"), (27, "F"),
    (33, "G"), (37, "H"), (43, "J"), (47, "K"), (53, "L"), (57, ":"),
    (63, "\""), (67, "ENT"),
    (4, "CTL"), (8, "OPT"), (14, "ALT"), (18, "Z"), (24, "X"), (28, "C"),
    (34, "V"), (38, "B"), (44, "N"), (48, "M"), (54, "<"), (58, ">"),
    (64, "?"), (68, "SPC") ]

/-- The function keymap layer `KEYMAP_FN` from `_keys.py`. -/
def KEYMAP_FN : List (Nat × String) :=
  [ (1, "ESC"), (5, "F1"), (11, "F2"), (15, "F3"), (21, "F4"), (25, "F5"),
    (31, "F6"), (35, "F7"), (41, "F8"), (45, "F9"), (51, "F10"), (55, "_"),
    (61, "="), (65, "DEL"),
    (2, "TAB"), (6, "q"), (12, "w"), (16, "e"), (22, "r"), (26, "t"),
    (32, "y"), (36, "u"), (42, "i"), (46, "o"), (52, "p"), (56, "["),
    (62, "]"), (66, "\\"),
    (3, "FN"), (7, "SHIFT"), (13, "a"), (17, "s"), (23, "d"), (27, "f"),
    (33, "g"), (37, "h"), (43, "j"), (47, "k"), (53, "l"), (57, "UP"),
    (63, APOS), (67, "ENT"),
    (4, "CTL"), (8, "OPT"), (14, "ALT"), (18, "z"), (24, "x"), (28, "c"),
    (34, "v"), (38, "b"), (44, "n"), (48, "m"), (54, "LEFT"), (58, "DOWN"),
    (64, "RIGHT"), (68, "SPC") ]

/-- The pure state update of `Keys.scan` on one decoded event: press
appends the code if absent, release removes it if present (spurious
releases are no-ops). -/
def applyEvent (buf : List Nat) (key_code : Nat) (is_press : Bool) : List Nat :=
  let buf1 := if is_press then (if key_code ∈ buf then buf else buf ++ [key_code]) else buf
  if !is_press then (if key_code ∈ buf1 then buf1.erase key_code else buf1) else buf1

/-- `Keys.scan`: pull one event from the driver and fold it into the
held-key buffer. -/
def scan (buf : List Nat) (c : TCA8418) : List Nat × TCA8418 :=
  let r := read_key_event c
  (applyEvent buf r.1.1 r.1.2, r.2)

/-- Folding a whole sequence of already-decoded events into the buffer. -/
def applyEvents (buf : List Nat) (evs : List (Nat × Bool)) : List Nat :=
  evs.foldl (fun b e => applyEvent b e.1 e.2) buf

/-- Whether the last event in `evs` concerning `code` is a press
(`false` when `evs` has no event for `code`). -/
def netPressed (evs : List (Nat × Bool)) (code : Nat) : Bool :=
  match evs.reverse.find? (fun e => e.1 == code) with
  | some e => e.2
  | none => false

/-- The FIFO drain loop at the top of `Keys.get_pressed_keys`
(`while event_count: self.scan(); event_count = ...`), with explicit
fuel; `none` means the loop had not finished after `fuel` iterations. -/
def drain (fuel : Nat) (buf : List Nat) (c : TCA8418) :
    Option (List Nat × TCA8418) :=
  if read_event_count c = 0 then some (buf, c)
  else
    match fuel with
    | 0 => none
    | f + 1 => drain f (scan buf c).1 (scan buf c).2

/-- The drain loop never finishes, whatever the fuel. -/
def drainDiverges (buf : List Nat) (c : TCA8418) : Prop :=
  ∀ fuel, drain fuel buf c = none

/-- Python dict lookup `m[k]`: `KeyError k` when the key is absent. -/
def lookupMap (m : List (Nat × String)) (k : Nat) : Except Nat String :=
  match m.lookup k with
  | some v => Except.ok v
  | none => Except.error k

/-- The symbol-append loop of `Keys.get_pressed_keys`: resolve each held
code through the layer table in buffer order, raising `KeyError` at the
first unmapped code. -/
def mapKeys (m : List (Nat × String)) : List Nat → Except Nat (List String)
  | [] => Except.ok []
  | k :: ks =>
    match lookupMap m k with
    | Except.error e => Except.error e
    | Except.ok v =>
      match mapKeys m ks with
      | Except.error e => Except.error e
      | Except.ok vs => Except.ok (v :: vs)

/-- The layer-resolution tail of `Keys.get_pressed_keys`, after the FIFO
has been drained: `g0` is true when the auxiliary G0 input reads low
(active). -/
def resolveKeys (buf : List Nat) (g0 : Bool) (force_fn force_shift : Bool) :
    Except Nat (List String) :=
  let key_state : List String := if g0 then ["G0"] else []
  if buf = [] ∧ key_state = [] then Except.ok key_state
  else if KC_FN ∈ buf ∨ force_fn = true then
    (mapKeys KEYMAP_FN buf).map (fun syms => key_state ++ syms)
  else if KC_SHIFT ∈ buf ∨ force_shift = true then
    (mapKeys KEYMAP_SHIFT buf).map (fun syms => key_state ++ syms)
  else
    (mapKeys KEYMAP buf).map (fun syms => key_state ++ syms)

/-- The layer table selected by the `if`/`elif`/`else` chain of
`Keys.get_pressed_keys`. -/
def tableFor (buf : List Nat) (force_fn force_shift : Bool) : List (Nat × String) :=
  if KC_FN ∈ buf ∨ force_fn = true then KEYMAP_FN
  else if KC_SHIFT ∈ buf ∨ force_shift = true then KEYMAP_SHIFT
  else KEYMAP

/-- `Keys.get_pressed_keys`: drain the FIFO into the buffer, then resolve
the held codes.  Returns the resolved list (or the escaping `KeyError`)
together with the new buffer and chip state; `none` when the drain loop
did not finish within `fuel`. -/
def get_pressed_keys (fuel : Nat) (buf : List Nat) (c : TCA8418) (g0 : Bool)
    (force_fn force_shift : Bool) :
    Option (Except Nat (List String) × List Nat × TCA8418) :=
  match drain fuel buf c with
  | none => none
  | some (buf2, c2) => some (resolveKeys buf2 g0 force_fn force_shift, buf2, c2)

/-- Two consecutive polls with no intervening hardware change; returns the
pair of resolved outputs. -/
def poll_twice (fuel : Nat) (buf : List Nat) (c : TCA8418) (g0 : Bool)
    (force_fn force_shift : Bool) :
    Option (Except Nat (List String) × Except Nat (List String)) :=
  match get_pressed_keys fuel buf c g0 force_fn force_shift with
  | none => none
  | some (r1, buf1, c1) =>
    match get_pressed_keys fuel buf1 c1 g0 force_fn force_shift with
    | none => none
    | some (r2, _, _) => some (r1, r2)

/-- Whether a resolution outcome is an escaping exception. -/
def isErr : Except Nat (List String) → Bool
  | Except.error _ => true
  | Except.ok _ => false

/-! ## Helper lemmas -/

theorem and_fifteen_eq {n : Nat} (h : n < 16) : n &&& 15 = n := by
  interval_cases n <;> rfl

set_option maxRecDepth 4000 in
theorem byte_low_bits : ∀ r, r < 256 → r &&& 127 = r % 128 := by decide

set_option maxRecDepth 4000 in
theorem byte_high_bit : ∀ r, r < 256 → (r &&& 128 != 0) = decide (r / 128 % 2 = 1) := by
  decide

theorem netPressed_append (evs : List (Nat × Bool)) (k : Nat) (p : Bool) (code : Nat) :
    netPressed (evs ++ [(k, p)]) code = if k = code then p else netPressed evs code := by
  by_cases hk : k = code
  · simp [netPressed, List.find?, hk]
  · simp [netPressed, List.find?, hk]

theorem applyEvent_press (buf : List Nat) (k : Nat) :
    applyEvent buf k true = if k ∈ buf then buf else buf ++ [k] := by
  simp [applyEvent]

theorem applyEvent_release (buf : List Nat) (k : Nat) :
    applyEvent buf k false = if k ∈ buf then buf.erase k else buf := by
  simp [applyEvent]

theorem mem_applyEvent_press (buf : List Nat) (k code : Nat) :
    code ∈ applyEvent buf k true ↔ code ∈ buf ∨ code = k := by
  rw [applyEvent_press]
  by_cases hk : k ∈ buf
  · rw [if_pos hk]
    constructor
    · exact Or.inl
    · rintro (h | rfl)
      · exact h
      · exact hk
  · rw [if_neg hk]
    simp [List.mem_append]

theorem mem_applyEvent_release (buf : List Nat) (k code : Nat) (hnd : buf.Nodup) :
    code ∈ applyEvent buf k false ↔ code ∈ buf ∧ code ≠ k := by
  rw [applyEvent_release]
  by_cases hk : k ∈ buf
  · rw [if_pos hk]
    rw [List.Nodup.mem_erase_iff hnd]
    tauto
  · rw [if_neg hk]
    constructor
    · intro h
      exact ⟨h, fun he => hk (he ▸ h)⟩
    · exact And.left

theorem nodup_applyEvent (buf : List Nat) (k : Nat) (p : Bool) (hnd : buf.Nodup) :
    (applyEvent buf k p).Nodup := by
  cases p
  · rw [applyEvent_release]
    by_cases hk : k ∈ buf
    · rw [if_pos hk]
      exact hnd.erase k
    · rw [if_neg hk]
      exact hnd
  · rw [applyEvent_press]
    by_cases hk : k ∈ buf
    · rw [if_pos hk]
      exact hnd
    · rw [if_neg hk]
      rw [List.nodup_append]
      refine ⟨hnd, List.nodup_singleton k, ?_⟩
      intro a ha hmem
      rw [List.mem_singleton] at hmem
      exact hk (hmem ▸ ha)

/-- C1: for every finite sequence of press/release KeyEvents applied via
the scan update to an initially empty held-key buffer, the buffer contains
exactly the codes whose last event was a press, each code at most once,
whatever the interleaving, duplicate presses, or spurious releases. -/
theorem c1_held_keys (evs : List (Nat × Bool)) :
    (applyEvents [] evs).Nodup ∧
      ∀ code, code ∈ applyEvents [] evs ↔ netPressed evs code = true := by
  induction evs using List.reverseRecOn with
  | nil => simp [applyEvents, netPressed, List.find?]
  | append_singleton evs e ih =>
    obtain ⟨hnd, hmem⟩ := ih
    obtain ⟨k, p⟩ := e
    have happ : applyEvents [] (evs ++ [(k, p)]) = applyEvent (applyEvents [] evs) k p := by
      simp [applyEvents]
    constructor
    · rw [happ]
      exact nodup_applyEvent _ _ _ hnd
    · intro code
      rw [happ, netPressed_append]
      cases p
      · rw [mem_applyEvent_release _ _ _ hnd]
        by_cases hk : k = code
        · subst hk
          simp
        · simp only [if_neg hk]
          rw [← hmem code]
          constructor
          · exact And.left
          · intro h
            exact ⟨h, fun he => hk he.symm⟩
      · rw [mem_applyEvent_press]
        by_cases hk : k = code
        · subst hk
          simp
        · simp only [if_neg hk]
          rw [← hmem code]
          constructor
          · rintro (h | rfl)
            · exact h
            · exact absurd rfl hk
          · exact Or.inl

/-- C9: the early-return branch guarded by `(interrupt & 0x00) != 0` in
`read_key_event` is unreachable — bitwise AND with zero is zero — so the
function is extensionally equal to the same function with that branch
removed. -/
theorem c9_dead_branch_removed (c : TCA8418) :
    read_key_event c = read_key_event_live c := by
  unfold read_key_event read_key_event_live
  simp [Nat.and_zero]

theorem fifo_ne_of_count {c : TCA8418} (h : read_event_count c ≠ 0) : c.fifo ≠ [] := by
  intro he
  apply h
  simp [read_event_count, readKeyLckEc, he]

/-- C10: whenever `read_key_event` has no event to deliver (event-flag bit
clear, or FIFO count zero), it returns the sentinel `(0, false)` — a
release of code 0 — and feeding that through the scan update leaves any
buffer not containing code 0 unchanged, so a wasted drain iteration never
alters the held-key set. -/
theorem c10_sentinel (c : TCA8418) (buf : List Nat) (hg : c.glitches = [])
    (h : c.intStat &&& 1 = 0 ∨ read_event_count c = 0) (hb : (0 : Nat) ∉ buf) :
    (read_key_event c).1 = (0, false) ∧ (scan buf c).1 = buf := by
  have hre : read_key_event c = ((0, false), c) := by
    obtain ⟨i, fifo, gl⟩ := c
    dsimp only at hg
    subst hg
    rcases h with h | h
    · have h2 : i &&& 1 = 0 := h
      simp [read_key_event, readIntStat, readKeyLckEc, h2, Nat.and_zero]
    · have h2 : fifo.length &&& 15 = 0 := h
      simp [read_key_event, readIntStat, readKeyLckEc, h2, Nat.and_zero]
  refine ⟨by rw [hre], ?_⟩
  unfold scan
  rw [hre]
  dsimp only
  rw [applyEvent_release, if_neg hb]

/-- Witness for C10 at a concrete state. -/
theorem c10_witness :
    (read_key_event ⟨0, [], []⟩).1 = (0, false) ∧
      (scan [13] ⟨0, [], []⟩).1 = [13] :=
  c10_sentinel ⟨0, [], []⟩ [13] rfl (Or.inl rfl) (by decide)

theorem drain_stop (fuel : Nat) (buf : List Nat) (c : TCA8418)
    (h : read_event_count c = 0) : drain fuel buf c = some (buf, c) := by
  conv_lhs => rw [drain.eq_def]
  rw [if_pos h]

theorem drain_step (f : Nat) (buf : List Nat) (c : TCA8418)
    (h : read_event_count c ≠ 0) :
    drain (f + 1) buf c = drain f (scan buf c).1 (scan buf c).2 := by
  conv_lhs => rw [drain.eq_def]
  rw [if_neg h]


theorem read_key_event_pop (i raw : Nat) (rest : List Nat) (gl : List Bool)
    (hbit : i &&& 1 ≠ 0) (hgl : gl.headD false = false)
    (hcnt : (raw :: rest).length &&& 15 ≠ 0) :
    read_key_event ⟨i, raw :: rest, gl⟩ =
      ((raw &&& 127, raw &&& 128 != 0),
        ⟨if (raw :: rest).length &&& 15 = 1 then 0 else i, rest, gl.tail⟩) := by
  have hb : i % 2 = 1 := by
    rw [Nat.and_one_is_mod] at hbit
    omega
  have hc : rest.length + 1 &&& 15 ≠ 0 := by simpa using hcnt
  have hpos : 0 < rest.length + 1 &&& 15 := Nat.pos_of_ne_zero hc
  cases gl with
  | nil =>
    by_cases h1 : rest.length + 1 &&& 15 = 1
    · simp [read_key_event, readIntStat, readKeyLckEc, readKeyStat, clear_interrupt,
        Nat.and_zero, hb, hpos, h1]
    · simp [read_key_event, readIntStat, readKeyLckEc, readKeyStat, clear_interrupt,
        Nat.and_zero, hb, hpos, h1]
  | cons g grest =>
    have hg : g = false := by simpa using hgl
    subst hg
    by_cases h1 : rest.length + 1 &&& 15 = 1
    · simp [read_key_event, readIntStat, readKeyLckEc, readKeyStat, clear_interrupt,
        Nat.and_zero, hb, hpos, h1]
    · simp [read_key_event, readIntStat, readKeyLckEc, readKeyStat, clear_interrupt,
        Nat.and_zero, hb, hpos, h1]

theorem scan_pop (buf : List Nat) (i raw : Nat) (rest : List Nat) (gl : List Bool)
    (hbit : i &&& 1 ≠ 0) (hgl : gl.headD false = false)
    (hcnt : (raw :: rest).length &&& 15 ≠ 0) :
    scan buf ⟨i, raw :: rest, gl⟩ =
      (applyEvent buf (raw &&& 127) (raw &&& 128 != 0),
        ⟨if (raw :: rest).length &&& 15 = 1 then 0 else i, rest, gl.tail⟩) := by
  unfold scan
  rw [read_key_event_pop i raw rest gl hbit hgl hcnt]

theorem scan_glitch (buf : List Nat) (i : Nat) (f : List Nat) (rest : List Bool) :
    scan buf ⟨i, f, true :: rest⟩ = (applyEvent buf 0 false, ⟨i, f, rest⟩) := by
  simp [scan, read_key_event, readIntStat, Nat.and_zero]

/-- C5: with the event-flag bit set and a nonzero FIFO count,
`read_key_event` pops exactly one raw byte from the FIFO, decodes bit 7 as
the press flag and bits 0–6 as the key code, and clears the
interrupt-status register if and only if the count read before the pop
was 1. -/
theorem c5_next_event (c : TCA8418) (hg : c.glitches = [])
    (hbyte : ∀ b ∈ c.fifo, b < 256)
    (hbit : c.intStat &&& 1 ≠ 0) (hcnt : read_event_count c ≠ 0) :
    ∃ raw rest, c.fifo = raw :: rest ∧
      read_key_event c =
        ((raw % 128, decide (raw / 128 % 2 = 1)),
          ⟨if read_event_count c = 1 then 0 else c.intStat, rest, []⟩) := by
  obtain ⟨i, fifo, gl⟩ := c
  have hg2 : gl = [] := hg
  subst hg2
  have hbit2 : i &&& 1 ≠ 0 := hbit
  have hcnt2 : fifo.length &&& 15 ≠ 0 := hcnt
  have hbyte2 : ∀ b ∈ fifo, b < 256 := hbyte
  show ∃ raw rest, fifo = raw :: rest ∧
      read_key_event ⟨i, fifo, []⟩ =
        ((raw % 128, decide (raw / 128 % 2 = 1)),
          ⟨if read_event_count ⟨i, fifo, []⟩ = 1 then 0 else i, rest, []⟩)
  cases fifo with
  | nil => simp at hcnt2
  | cons raw rest =>
    refine ⟨raw, rest, rfl, ?_⟩
    have hraw : raw < 256 := hbyte2 raw (List.mem_cons_self raw rest)
    rw [read_key_event_pop i raw rest [] hbit2 rfl hcnt2]
    rw [byte_low_bits raw hraw, byte_high_bit raw hraw]
    have hcount : read_event_count ⟨i, raw :: rest, []⟩ = (raw :: rest).length &&& 15 := rfl
    rw [hcount]
    rfl

/-- Witness for C5: a press of code 13 (raw byte 0x8D) with one buffered
event clears the interrupt-status register. -/
theorem c5_witness :
    ∃ raw rest, ([141] : List Nat) = raw :: rest ∧
      read_key_event ⟨1, [141], []⟩ =
        ((raw % 128, decide (raw / 128 % 2 = 1)), ⟨0, rest, []⟩) :=
  c5_next_event ⟨1, [141], []⟩ rfl (by decide) (by decide) (by decide)

theorem drain_total : ∀ (fuel : Nat) (buf : List Nat) (c : TCA8418),
    c.fifo.length < 16 →
    (c.intStat &&& 1 = 1 ∨ c.fifo = []) →
    c.glitches.length + c.fifo.length < fuel →
    ∃ buf2 c2, drain fuel buf c = some (buf2, c2) ∧ c2.fifo = [] := by
  intro fuel
  induction fuel with
  | zero =>
    intro buf c _ _ hlt
    omega
  | succ f ih =>
    intro buf c hlen hint hfuel
    by_cases h0 : read_event_count c = 0
    · refine ⟨buf, c, drain_stop _ _ _ h0, ?_⟩
      have h15 : c.fifo.length &&& 15 = c.fifo.length := and_fifteen_eq hlen
      have h0b : c.fifo.length &&& 15 = 0 := h0
      rw [h15] at h0b
      exact List.length_eq_zero.mp h0b
    · have hfifo_ne : c.fifo ≠ [] := fifo_ne_of_count h0
      have hbit : c.intStat &&& 1 = 1 := hint.resolve_right hfifo_ne
      obtain ⟨i, fifo, gl⟩ := c
      have hbit2 : i &&& 1 = 1 := hbit
      have hbit3 : i &&& 1 ≠ 0 := by rw [hbit2]; exact one_ne_zero
      have hlen2 : fifo.length < 16 := hlen
      have hfuel2 : gl.length + fifo.length < f + 1 := hfuel
      have h02 : fifo.length &&& 15 ≠ 0 := h0
      rw [drain_step f buf _ h0]
      cases fifo with
      | nil => exact absurd rfl hfifo_ne
      | cons raw rest =>
        have hlen3 : rest.length < 16 := by
          simp only [List.length_cons] at hlen2
          omega
        have hintNew : ∀ j, (if (raw :: rest).length &&& 15 = 1 then 0 else i) = j →
            j &&& 1 = 1 ∨ rest = [] := by
          intro j hj
          by_cases h1 : (raw :: rest).length &&& 15 = 1
          · right
            rw [and_fifteen_eq hlen2] at h1
            simp only [List.length_cons] at h1
            have : rest.length = 0 := by omega
            exact List.length_eq_zero.mp this
          · left
            rw [if_neg h1] at hj
            rw [← hj]
            exact hbit2
        rcases gl with _ | ⟨g, grest⟩
        · rw [scan_pop buf i raw rest [] hbit3 rfl h02]
          obtain ⟨buf2, c2, hd, hf2⟩ :=
            ih (applyEvent buf (raw &&& 127) (raw &&& 128 != 0))
              ⟨if (raw :: rest).length &&& 15 = 1 then 0 else i, rest, []⟩
              hlen3 (hintNew _ rfl)
              (by
                simp only [List.length_cons, List.length_nil] at hfuel2 ⊢
                omega)
          exact ⟨buf2, c2, hd, hf2⟩
        · cases g with
          | true =>
            rw [scan_glitch buf i (raw :: rest) grest]
            obtain ⟨buf2, c2, hd, hf2⟩ :=
              ih (applyEvent buf 0 false) ⟨i, raw :: rest, grest⟩
                hlen2 (Or.inl hbit2)
                (by
                  simp only [List.length_cons] at hfuel2 ⊢
                  omega)
            exact ⟨buf2, c2, hd, hf2⟩
          | false =>
            rw [scan_pop buf i raw rest (false :: grest) hbit3 rfl h02]
            obtain ⟨buf2, c2, hd, hf2⟩ :=
              ih (applyEvent buf (raw &&& 127) (raw &&& 128 != 0))
                ⟨if (raw :: rest).length &&& 15 = 1 then 0 else i, rest, grest⟩
                hlen3 (hintNew _ rfl)
                (by
                  simp only [List.length_cons] at hfuel2 ⊢
                  omega)
            exact ⟨buf2, c2, hd, hf2⟩

/-- C2 counterexample: a state whose interrupt-status register is clear
while the FIFO reports two pending events.  `read_event_count` returns 2,
`read_key_event` returns no event, and the drain loop of
`get_pressed_keys` never terminates whatever fuel it is given — the code
has no bounded retry. -/
theorem c2_counterexample :
    drainDiverges [] ⟨0, [141, 13], []⟩ ∧
      read_event_count ⟨0, [141, 13], []⟩ = 2 := by
  constructor
  · show ∀ fuel, drain fuel [] ⟨0, [141, 13], []⟩ = none
    intro fuel
    induction fuel with
    | zero => decide
    | succ f ih =>
      have hscan : scan [] (⟨0, [141, 13], []⟩ : TCA8418) =
          ([], ⟨0, [141, 13], []⟩) := by decide
      rw [drain_step f [] _ (by decide), hscan]
      exact ih
  · rfl

/-- C2 (amended): the drain loop terminates whenever the interrupt
event-flag bit is set and the FIFO holds fewer than 16 entries, within
`glitches + events + 1` iterations — each glitched `read_key_event` call
(reporting a nonzero count but returning no event) costs one wasted
iteration and the loop still drains the remaining events.  Without such a
progress assumption the loop can spin forever (no bounded retry exists in
the code). -/
theorem c2_drain_terminates (buf : List Nat) (c : TCA8418)
    (hbit : c.intStat &&& 1 = 1) (hlen : c.fifo.length < 16) :
    ∃ buf2 c2,
      drain (c.glitches.length + c.fifo.length + 1) buf c = some (buf2, c2) ∧
        c2.fifo = [] :=
  drain_total _ buf c hlen (Or.inl hbit) (by omega)

/-- Witness for C2 (amended), the specification's Scenario 4: count reads
2 but the first `read_key_event` returns nothing (one scheduled glitch);
the poll does not hang and still drains both events. -/
theorem c2_witness :
    ∃ buf2 c2,
      drain 4 [] (⟨1, [141, 145], [true]⟩ : TCA8418) = some (buf2, c2) ∧
        c2.fifo = [] :=
  c2_drain_terminates [] ⟨1, [141, 145], [true]⟩ rfl (by decide)

theorem isErr_map (e : Except Nat (List String)) (f : List String → List String) :
    isErr (e.map f) = isErr e := by
  cases e <;> rfl

theorem mapKeys_error_iff (m : List (Nat × String)) (buf : List Nat) :
    isErr (mapKeys m buf) = true ↔ ∃ k, k ∈ buf ∧ m.lookup k = none := by
  induction buf with
  | nil =>
    constructor
    · intro h
      exact absurd h (by simp [mapKeys, isErr])
    · rintro ⟨k, hk, _⟩
      exact absurd hk (List.not_mem_nil k)
  | cons k ks ih =>
    constructor
    · intro h
      cases hl : m.lookup k with
      | none => exact ⟨k, List.mem_cons_self k ks, hl⟩
      | some v =>
        cases hm : mapKeys m ks with
        | error e =>
          obtain ⟨k2, hk2, hn⟩ := ih.mp (by rw [hm]; rfl)
          exact ⟨k2, List.mem_cons_of_mem _ hk2, hn⟩
        | ok vs =>
          exfalso
          rw [show mapKeys m (k :: ks) = Except.ok (v :: vs) from by
            simp [mapKeys, lookupMap, hl, hm]] at h
          simp [isErr] at h
    · rintro ⟨k2, hk2, hn⟩
      rcases List.mem_cons.mp hk2 with rfl | hk3
      · simp [mapKeys, lookupMap, hn, isErr]
      · have htl : isErr (mapKeys m ks) = true := ih.mpr ⟨k2, hk3, hn⟩
        cases hl : m.lookup k with
        | none => simp [mapKeys, lookupMap, hl, isErr]
        | some v =>
          cases hm : mapKeys m ks with
          | error e => simp [mapKeys, lookupMap, hl, hm, isErr]
          | ok vs =>
            rw [hm] at htl
            simp [isErr] at htl

theorem mapKeys_ok (m : List (Nat × String)) (buf : List Nat)
    (h : ∀ k ∈ buf, (m.lookup k).isSome = true) :
    mapKeys m buf = Except.ok (buf.filterMap (fun k => m.lookup k)) := by
  induction buf with
  | nil => rfl
  | cons k ks ih =>
    obtain ⟨v, hv⟩ := Option.isSome_iff_exists.mp (h k (List.mem_cons_self k ks))
    have ihh := ih (fun a ha => h a (List.mem_cons_of_mem _ ha))
    simp [mapKeys, lookupMap, hv, ihh, List.filterMap_cons]

theorem resolveKeys_eq_table (buf : List Nat) (g0 ffn fsh : Bool) :
    resolveKeys buf g0 ffn fsh =
      (mapKeys (tableFor buf ffn fsh) buf).map
        (fun syms => (if g0 then ["G0"] else []) ++ syms) := by
  unfold resolveKeys tableFor
  by_cases hfn : KC_FN ∈ buf ∨ ffn = true
  · cases g0
    · by_cases hb : buf = []
      · subst hb
        simp [mapKeys, Except.map, hfn]
      · simp [hb, hfn]
    · simp [hfn]
  · by_cases hsh : KC_SHIFT ∈ buf ∨ fsh = true
    · cases g0
      · by_cases hb : buf = []
        · subst hb
          simp [mapKeys, Except.map, hfn, hsh]
        · simp [hb, hfn, hsh]
      · simp [hfn, hsh]
    · cases g0
      · by_cases hb : buf = []
        · subst hb
          simp [mapKeys, Except.map, hfn, hsh]
        · simp [hb, hfn, hsh]
      · simp [hfn, hsh]

/-- C4: the active layer is Fn when the Fn code (3) is held or `force_fn`
is set, else Shift when the Shift code (7) is held or `force_shift` is
set, else Plain; in particular when both conditions hold every held code
is resolved through the Fn table. -/
theorem c4_layer_selection (buf : List Nat) (g0 ffn fsh : Bool) :
    resolveKeys buf g0 ffn fsh =
      (mapKeys (tableFor buf ffn fsh) buf).map
        (fun syms => (if g0 then ["G0"] else []) ++ syms) ∧
    ((KC_FN ∈ buf ∨ ffn = true) → tableFor buf ffn fsh = KEYMAP_FN) ∧
    (¬(KC_FN ∈ buf ∨ ffn = true) → (KC_SHIFT ∈ buf ∨ fsh = true) →
      tableFor buf ffn fsh = KEYMAP_SHIFT) ∧
    (¬(KC_FN ∈ buf ∨ ffn = true) → ¬(KC_SHIFT ∈ buf ∨ fsh = true) →
      tableFor buf ffn fsh = KEYMAP) := by
  refine ⟨resolveKeys_eq_table buf g0 ffn fsh, ?_, ?_, ?_⟩
  · intro h
    simp [tableFor, h]
  · intro h1 h2
    simp [tableFor, h1, h2]
  · intro h1 h2
    simp [tableFor, h1, h2]

/-- Witness for C4: with both the Fn code and the Shift code held, the Fn
table resolves every held code. -/
theorem c4_witness :
    resolveKeys [3, 7, 13] false false false =
      (mapKeys KEYMAP_FN [3, 7, 13]).map
        (fun syms => (if false then ["G0"] else []) ++ syms) := by
  have h := c4_layer_selection [3, 7, 13] false false false
  have ht : tableFor [3, 7, 13] false false = KEYMAP_FN :=
    h.2.1 (Or.inl (by decide))
  have h1 := h.1
  rw [ht] at h1
  exact h1

/-- C3 counterexample: with held codes `[13, 9]` (code 9 is absent from
every layer table), `get_pressed_keys` raises `KeyError 9` out of the
poll; the mapped code 13 is not reported. -/
theorem c3_counterexample :
    get_pressed_keys 1 [13, 9] ⟨0, [], []⟩ false false false =
      some (Except.error 9, [13, 9], ⟨0, [], []⟩) := rfl

/-- C3 (amended): resolution raises a `KeyError` out of the poll exactly
when some held code is absent from the active layer's table — the
remaining held keys are then not reported; when every held code is in the
table, no exception escapes. -/
theorem c3_keyerror (buf : List Nat) (g0 ffn fsh : Bool) :
    isErr (resolveKeys buf g0 ffn fsh) = true ↔
      ∃ k, k ∈ buf ∧ (tableFor buf ffn fsh).lookup k = none := by
  rw [resolveKeys_eq_table, isErr_map, mapKeys_error_iff]

/-- C6: when the FIFO is empty and every held code is mapped by the active
layer, the poll returns one symbol per held code in buffer (insertion)
order, with the synthetic auxiliary symbol "G0" first when the auxiliary
input is active. -/
theorem c6_resolved_order (buf : List Nat) (c : TCA8418) (g0 ffn fsh : Bool)
    (hfifo : c.fifo = [])
    (hm : ∀ k ∈ buf, ((tableFor buf ffn fsh).lookup k).isSome = true) :
    get_pressed_keys 1 buf c g0 ffn fsh =
      some (Except.ok ((if g0 then ["G0"] else []) ++
          buf.filterMap (fun k => (tableFor buf ffn fsh).lookup k)), buf, c) := by
  have hd : drain 1 buf c = some (buf, c) :=
    drain_stop 1 buf c (by simp [read_event_count, readKeyLckEc, hfifo])
  simp only [get_pressed_keys, hd]
  rw [resolveKeys_eq_table, mapKeys_ok _ _ hm]
  rfl

/-- Witness for C6: auxiliary input active with no matrix keys held gives
`["G0"]`; nothing held and auxiliary inactive gives `[]`. -/
theorem c6_witness :
    get_pressed_keys 1 [] ⟨0, [], []⟩ true false false =
      some (Except.ok ["G0"], [], ⟨0, [], []⟩) ∧
    get_pressed_keys 1 [] ⟨0, [], []⟩ false false false =
      some (Except.ok [], [], ⟨0, [], []⟩) := by
  constructor
  · have h := c6_resolved_order [] ⟨0, [], []⟩ true false false rfl (by simp)
    simpa using h
  · have h := c6_resolved_order [] ⟨0, [], []⟩ false false false rfl (by simp)
    simpa using h

/-- C8: polling twice with the same force flags, the FIFO empty on both
calls, and the auxiliary input unchanged yields the identical resolved
output both times. -/
theorem c8_idempotent (buf : List Nat) (c : TCA8418) (g0 ffn fsh : Bool)
    (hfifo : c.fifo = []) :
    poll_twice 1 buf c g0 ffn fsh =
      some (resolveKeys buf g0 ffn fsh, resolveKeys buf g0 ffn fsh) := by
  have hd : drain 1 buf c = some (buf, c) :=
    drain_stop 1 buf c (by simp [read_event_count, readKeyLckEc, hfifo])
  simp only [poll_twice, get_pressed_keys, hd]

/-- Witness for C8 at a concrete state. -/
theorem c8_witness :
    poll_twice 1 [13] ⟨0, [], []⟩ false false false =
      some (resolveKeys [13] false false false,
        resolveKeys [13] false false false) :=
  c8_idempotent [13] ⟨0, [], []⟩ false false false rfl

/-- C7 counterexample: with no device answering on the bus,
`TCA8418.__init__` raises, but `Keys.__init__` catches the `OSError` and
completes construction normally (with no keypad handle), so bring-up is
not aborted and nothing propagates to the caller. -/
theorem c7_counterexample :
    keys_init [] = ⟨[], none, []⟩ ∧
      tca8418_init [] TCA8418_ADDR =
        Except.error "TCA8418 not found at address 0x34" :=
  ⟨rfl, rfl⟩

/-- C7 (amended): when the chip does not acknowledge its bus address,
`TCA8418.__init__` raises `OSError` once (there is no retry), but
`Keys.__init__` catches it, prints a message, and completes normally with
no keypad driver bound — the error is not propagated to the caller. -/
theorem c7_device_not_found (scanResult : List Nat)
    (h : TCA8418_ADDR ∉ scanResult) :
    tca8418_init scanResult TCA8418_ADDR =
      Except.error "TCA8418 not found at address 0x34" ∧
    keys_init scanResult = ⟨[], none, []⟩ := by
  have ht : tca8418_init scanResult TCA8418_ADDR =
      Except.error "TCA8418 not found at address 0x34" := by
    unfold tca8418_init
    rw [if_neg h]
  refine ⟨ht, ?_⟩
  simp only [keys_init, ht]

/-- Witness for C7 at a concrete bus-scan result that misses the chip. -/
theorem c7_witness :
    tca8418_init [1, 2] TCA8418_ADDR =
      Except.error "TCA8418 not found at address 0x34" ∧
    keys_init [1, 2] = ⟨[], none, []⟩ :=
  c7_device_not_found [1, 2] (by decide)
